import Mathlib

/-!
Shallow embedding of the `connect` package of crunchy-proxy
(`src/connect/connect.go`): the message-framing functions
`ReceiveStartupMessage` and `Receive`, and the `Connect` orchestration with
its SSL negotiation, together with proofs about them.

A byte stream delivered by a peer is modelled as a `List Nat` of byte
values; `io.ReadFull` over such a stream succeeds iff enough bytes remain
before the stream closes.  Go's `make([]byte, n)` panics at runtime when `n`
is negative, so the receive functions have an explicit `crash` outcome.
-/

namespace CrunchyProxy

/-- A byte stream: the bytes a peer delivers before closing the stream. -/
abbrev Stream := List Nat

/-- Outcome of `ReceiveStartupMessage` / `Receive` (the Go functions return
`([]byte, int, error)`): `ok bytes count` is a nil-error return of `bytes`
and `count`; `fail count` is a `(nil, count, err)` return; `crash` is the
runtime panic raised by `make([]byte, n)` when `n` is negative. -/
inductive RecvResult where
  | ok (bytes : List Nat) (count : Nat)
  | fail (count : Nat)
  | crash
deriving DecidableEq, Repr

/-- `binary.BigEndian.Uint32` of four bytes. -/
def beUint32 (b0 b1 b2 b3 : Nat) : Nat :=
  (b0 % 256) * 16777216 + (b1 % 256) * 65536 + (b2 % 256) * 256 + (b3 % 256)

/-- `ReceiveStartupMessage(connection)` from `connect.go`: read a 4-byte
header, big-endian-decode it as the self-inclusive total length, read
`length - 4` further bytes as payload, and return header++payload together
with its length.  A short header or short payload read is an `io.ReadFull`
error; on both error paths the Go code returns count `0` (the payload
read's count is discarded with `_`).  A decoded length below 4 makes
`make([]byte, n)` panic on the negative size. -/
def ReceiveStartupMessage (s : Stream) : RecvResult :=
  if s.length < 4 then .fail 0
  else
    let header := s.take 4
    let n : Int :=
      (beUint32 (header.getD 0 0) (header.getD 1 0) (header.getD 2 0)
        (header.getD 3 0) : Int) - 4
    if n < 0 then .crash
    else
      let payloadAvail := s.drop 4
      if payloadAvail.length < n.toNat then .fail 0
      else
        let msg := header ++ payloadAvail.take n.toNat
        .ok msg msg.length

/-- `Receive(connection)` from `connect.go`: read a 5-byte header (1 type
byte + 4 length bytes), decode the length from header bytes 1-4, read
`length - 4` payload bytes, return header++payload and its length.  A short
header read returns count `0`; a short payload read returns the count of
payload bytes `io.ReadFull` actually delivered (the Go code shadows `n`
with `io.ReadFull`'s count in the error branch).  A decoded length below 4
makes `make([]byte, n)` panic on the negative size. -/
def Receive (s : Stream) : RecvResult :=
  if s.length < 5 then .fail 0
  else
    let header := s.take 5
    let n : Int :=
      (beUint32 (header.getD 1 0) (header.getD 2 0) (header.getD 3 0)
        (header.getD 4 0) : Int) - 4
    if n < 0 then .crash
    else
      let payloadAvail := s.drop 5
      if payloadAvail.length < n.toNat then .fail payloadAvail.length
      else
        let msg := header ++ payloadAvail.take n.toNat
        .ok msg msg.length

/-- An I/O error value, standing for the Go `error` values a `net.Conn` can
produce. -/
inductive IOErr where
  | eof
  | useOfClosedConn
  | other (code : Nat)
deriving DecidableEq, Repr

/-- Model of a `net.Conn` together with the peer's script: `writeError` and
`readError` script the next write or read to fail, `chunks` holds the
successive byte chunks reads deliver before EOF, `written` records the
bytes sent so far, and `closed` / `upgraded` record `Close()` and the TLS
upgrade. -/
structure Conn where
  writeError : Option IOErr
  readError : Option IOErr
  chunks : List (List Nat)
  written : List Nat
  closed : Bool
  upgraded : Bool
deriving DecidableEq, Repr

/-- `connection.Write(msg)`: fails on a closed connection or when the
script says so, otherwise appends `msg` to the bytes sent. -/
def connWrite (c : Conn) (msg : List Nat) : Except IOErr Conn :=
  if c.closed then .error .useOfClosedConn
  else
    match c.writeError with
    | some e => .error e
    | none => .ok { c with written := c.written ++ msg }

/-- `connection.Read(buf)` with a buffer of `bufLen` bytes: fails with a
stream-closed error on a closed connection, fails when the script says so,
reports EOF at end of stream, and otherwise delivers up to `bufLen` bytes
of the next pending chunk. -/
def connRead (c : Conn) (bufLen : Nat) : Except IOErr (List Nat × Conn) :=
  if c.closed then .error .useOfClosedConn
  else
    match c.readError with
    | some e => .error e
    | none =>
      match c.chunks with
      | [] => .error .eof
      | chunk :: restChunks =>
        if chunk.length ≤ bufLen then .ok (chunk, { c with chunks := restChunks })
        else .ok (chunk.take bufLen, { c with chunks := chunk.drop bufLen :: restChunks })

/-- `connection.Close()`. -/
def connClose (c : Conn) : Conn := { c with closed := true }

/-- Modelled from the spec: the `protocol` package is not under `src/`; its
message buffer's `WriteInt32` appends one 32-bit value in big-endian byte
order ("big-endian throughout"). -/
def writeInt32 (v : Nat) : List Nat :=
  [v / 16777216 % 256, v / 65536 % 256, v / 256 % 256, v % 256]

/-- Modelled from the spec: `protocol.SSLRequestCode`, "the protocol's
reserved SSL-request sentinel", a fixed 4-byte negotiation code; the wire
protocol is modelled on PostgreSQL's, whose SSLRequest code is 80877103. -/
def sslRequestCode : Nat := 80877103

/-- The SSL request message built by `Connect`: a fresh message buffer
holding `WriteInt32(8)` followed by `WriteInt32(SSLRequestCode)`. -/
def sslRequestMessage : List Nat := writeInt32 8 ++ writeInt32 sslRequestCode

/-- The Go buffer `response := make([]byte, 4096)` after a read delivered
`chunk` into it: the chunk's bytes followed by the zero bytes `make` put
there. -/
def fillBuffer (size : Nat) (chunk : List Nat) : List Nat :=
  chunk.take size ++ List.replicate (size - (chunk.take size).length) 0

/-- Modelled from the spec: the stream-upgrade collaborator
`UpgradeClientConnection` (not under `src/`) performs the security
handshake and "returns a new stream over the same transport". -/
def UpgradeClientConnection (c : Conn) : Conn := { c with upgraded := true }

/-- Result of `Connect`: `conn c` is a `(connection, nil)` return and
`err e` is a `(nil, err)` return. -/
inductive ConnectResult where
  | conn (c : Conn)
  | err (e : IOErr)
deriving DecidableEq, Repr

/-- `Connect(host)` from `connect.go`, with the `net.Dial` outcome and the
`config.GetBool("credentials.ssl.enable")` flag as explicit inputs.  When
SSL is enabled it writes the SSL request message, reads the backend's
response into a 4096-byte buffer, and then checks
`len(response) > 0 && response[0] != 'S'`: if so it closes the connection
— yet still falls through and returns it with a nil error — and otherwise
it upgrades the connection in place. -/
def Connect (sslEnabled : Bool) (dial : Except IOErr Conn) : ConnectResult :=
  match dial with
  | .error e => .err e
  | .ok connection =>
    if sslEnabled then
      match connWrite connection sslRequestMessage with
      | .error e => .err e
      | .ok connection1 =>
        match connRead connection1 4096 with
        | .error e => .err e
        | .ok (chunk, connection2) =>
          let response := fillBuffer 4096 chunk
          if response.length > 0 ∧ response.getD 0 0 ≠ 83 then
            .conn (connClose connection2)
          else
            .conn (UpgradeClientConnection connection2)
    else
      .conn connection

/-- C7: encoding the SSL-request message (an 8-byte StartupMessage with
length field 8 and the fixed 4-byte SSL-request sentinel as payload) and
parsing it back with `ReceiveStartupMessage` yields total length 8 and the
original sentinel payload, with no error. -/
theorem sslRequest_roundTrip :
    ReceiveStartupMessage sslRequestMessage = .ok sslRequestMessage 8 ∧
    sslRequestMessage.drop 4 = writeInt32 sslRequestCode := by
  decide

/-- C2 evaluation: a decoded length below 4 does not degrade to a
zero-length payload read — both receive functions panic on the negative
`make` size (here length 3), while length exactly 4 does return just the
header with no error. -/
theorem malformedLength_crashes :
    ReceiveStartupMessage [0, 0, 0, 3] = .crash ∧
    Receive [81, 0, 0, 0, 3] = .crash ∧
    ReceiveStartupMessage [0, 0, 0, 4] = .ok [0, 0, 0, 4] 4 ∧
    Receive [81, 0, 0, 0, 4] = .ok [81, 0, 0, 0, 4] 5 := by
  decide

/-- `List.getD` of a `take` agrees with `getD` of the list below the cut. -/
theorem getD_take (s : List Nat) (n i : Nat) (h : i < n) :
    (s.take n).getD i 0 = s.getD i 0 := by
  simp [List.getD, List.getElem?_take, h]

/-- The response buffer always has the size `make` gave it. -/
theorem fillBuffer_length (size : Nat) (chunk : List Nat) :
    (fillBuffer size chunk).length = size := by
  rw [fillBuffer, List.length_append, List.length_replicate, List.length_take]
  omega

/-- The first byte of a nonempty response buffer is the chunk's first byte,
or the zero `make` put there when the chunk is empty. -/
theorem fillBuffer_getD_zero (size : Nat) (hs : 0 < size) (chunk : List Nat) :
    (fillBuffer size chunk).getD 0 0 = chunk.getD 0 0 := by
  cases chunk with
  | nil =>
    cases size with
    | zero => omega
    | succ m => simp [fillBuffer, List.replicate_succ]
  | cons a t =>
    cases size with
    | zero => omega
    | succ m => simp [fillBuffer]

/-- On an open connection whose scripted write and read both succeed,
`Connect` with SSL enabled sends the SSL request, consumes the first
response chunk, and branches only on that chunk's first byte: anything
other than 83 ('S') closes the connection (and still returns it), 83
upgrades it in place. -/
theorem Connect_ssl_script (c : Conn) (chunk : List Nat)
    (restChunks : List (List Nat))
    (hclosed : c.closed = false) (hw : c.writeError = none)
    (hr : c.readError = none) (hch : c.chunks = chunk :: restChunks) :
    Connect true (.ok c) =
      if chunk.getD 0 0 ≠ 83 then
        .conn (connClose { c with
          written := c.written ++ sslRequestMessage,
          chunks := if chunk.length ≤ 4096 then restChunks
                    else chunk.drop 4096 :: restChunks })
      else
        .conn (UpgradeClientConnection { c with
          written := c.written ++ sslRequestMessage,
          chunks := if chunk.length ≤ 4096 then restChunks
                    else chunk.drop 4096 :: restChunks }) := by
  have hwrite : connWrite c sslRequestMessage =
      .ok { c with written := c.written ++ sslRequestMessage } := by
    simp [connWrite, hclosed, hw]
  have hfl : 0 < (fillBuffer 4096 chunk).length := by
    rw [fillBuffer_length]; omega
  have hfl2 : 0 < (fillBuffer 4096 (chunk.take 4096)).length := by
    rw [fillBuffer_length]; omega
  have hfd : (fillBuffer 4096 chunk).getD 0 0 = chunk.getD 0 0 :=
    fillBuffer_getD_zero 4096 (by omega) chunk
  have hfd2 : (fillBuffer 4096 (chunk.take 4096)).getD 0 0 = chunk.getD 0 0 := by
    rw [fillBuffer_getD_zero 4096 (by omega), getD_take _ _ _ (by omega)]
  by_cases hlen : chunk.length ≤ 4096
  · have hread : connRead { c with written := c.written ++ sslRequestMessage } 4096 =
        .ok (chunk, { c with
          written := c.written ++ sslRequestMessage,
          chunks := restChunks }) := by
      simp [connRead, hclosed, hr, hch, hlen]
    have hcond : ((fillBuffer 4096 chunk).length > 0 ∧
        ¬(fillBuffer 4096 chunk).getD 0 0 = 83) ↔ ¬chunk.getD 0 0 = 83 := by
      rw [hfd]
      exact ⟨fun h => h.2, fun h => ⟨hfl, h⟩⟩
    simp only [Connect, hwrite, hread, if_true, eq_self_iff_true, ite_true, ne_eq]
    rw [if_pos hlen]
    exact if_congr hcond rfl rfl
  · have hread : connRead { c with written := c.written ++ sslRequestMessage } 4096 =
        .ok (chunk.take 4096, { c with
          written := c.written ++ sslRequestMessage,
          chunks := chunk.drop 4096 :: restChunks }) := by
      simp [connRead, hclosed, hr, hch, hlen]
    have hcond : ((fillBuffer 4096 (chunk.take 4096)).length > 0 ∧
        ¬(fillBuffer 4096 (chunk.take 4096)).getD 0 0 = 83) ↔ ¬chunk.getD 0 0 = 83 := by
      rw [hfd2]
      exact ⟨fun h => h.2, fun h => ⟨hfl2, h⟩⟩
    simp only [Connect, hwrite, hread, if_true, eq_self_iff_true, ite_true, ne_eq]
    rw [if_neg hlen]
    exact if_congr hcond rfl rfl

/-- C1 evaluation: with SSL required and a backend whose negotiation
response is `'N'` (78), `Connect` closes the connection but still returns
the closed handle with a nil error — the `.conn` constructor below is the
`(connection, nil)` return, and the returned connection has `closed`. -/
theorem sslRejected_returns_closed_conn :
    Connect true (.ok { writeError := none, readError := none,
                        chunks := [[78]], written := [],
                        closed := false, upgraded := false }) =
      .conn { writeError := none, readError := none, chunks := [],
              written := sslRequestMessage, closed := true,
              upgraded := false } := by
  rw [Connect_ssl_script _ [78] [] rfl rfl rfl rfl]
  simp [connClose]

/-- C10: when the SSL flag is false and the dial succeeded, `Connect`
returns the dialed connection unchanged with a nil error: nothing was
written, no chunk was consumed, and the connection was neither closed nor
upgraded. -/
theorem noSSL_returns_dialed_conn (c : Conn) :
    Connect false (.ok c) = .conn c := by
  simp [Connect]

/-- C6: during SSL negotiation, the first byte of the backend's response
alone decides the outcome: 83 ('S') leads to an in-place upgrade of the
connection, and any other first byte — including an empty response, whose
buffer first byte is the zero `make` put there — leads to the plaintext
connection being closed, so a subsequent read on it fails with the
stream-closed error. -/
theorem ssl_first_byte_decides (c c2 : Conn) (chunk : List Nat)
    (restChunks : List (List Nat))
    (hclosed : c.closed = false) (hw : c.writeError = none)
    (hr : c.readError = none) (hch : c.chunks = chunk :: restChunks)
    (hc2 : c2 = { c with
      written := c.written ++ sslRequestMessage,
      chunks := if chunk.length ≤ 4096 then restChunks
                else chunk.drop 4096 :: restChunks }) :
    (chunk.getD 0 0 = 83 →
       Connect true (.ok c) = .conn (UpgradeClientConnection c2) ∧
       (UpgradeClientConnection c2).upgraded = true) ∧
    (chunk.getD 0 0 ≠ 83 →
       Connect true (.ok c) = .conn (connClose c2) ∧
       (connClose c2).closed = true ∧
       ∀ bufLen, connRead (connClose c2) bufLen = .error .useOfClosedConn) := by
  subst hc2
  rw [Connect_ssl_script c chunk restChunks hclosed hw hr hch]
  constructor
  · intro hS
    rw [if_neg (not_not_intro hS)]
    exact ⟨rfl, rfl⟩
  · intro hS
    rw [if_pos hS]
    exact ⟨rfl, rfl, fun bufLen => by simp [connRead, connClose]⟩

/-- Witness for C6 at a concrete rejecting backend: the response chunk
starts with 78 ('N'), so the returned connection is the closed one and a
read of 4096 bytes on it fails with the stream-closed error. -/
theorem ssl_first_byte_decides_witness :
    Connect true (.ok ⟨none, none, [[78, 1], [9]], [2], false, false⟩) =
      .conn (connClose ⟨none, none, [[9]], [2] ++ sslRequestMessage, false, false⟩) ∧
    connRead (connClose ⟨none, none, [[9]], [2] ++ sslRequestMessage, false, false⟩) 4096 =
      .error .useOfClosedConn := by
  have h := (ssl_first_byte_decides ⟨none, none, [[78, 1], [9]], [2], false, false⟩
      ⟨none, none, [[9]], [2] ++ sslRequestMessage, false, false⟩
      [78, 1] [[9]] rfl rfl rfl rfl (by simp)).2 (by simp)
  exact ⟨h.1, h.2.2 4096⟩

/-- C8: with SSL required on a successfully dialed connection, a failing
SSL-request write, or a failing read of the backend's response, makes
`Connect` abort and return that I/O error with no connection handle. -/
theorem ssl_io_failure_aborts (c : Conn) (hclosed : c.closed = false) :
    (∀ e, c.writeError = some e → Connect true (.ok c) = .err e) ∧
    (∀ e, c.writeError = none → c.readError = some e →
       Connect true (.ok c) = .err e) := by
  constructor
  · intro e hw
    simp [Connect, connWrite, hclosed, hw]
  · intro e hw hr
    simp [Connect, connWrite, connRead, hclosed, hw, hr]

/-- Witness for C8: a scripted write failure and a scripted read failure,
each surfaced as that same error by `Connect`. -/
theorem ssl_io_failure_aborts_witness :
    Connect true (.ok ⟨some (.other 7), none, [], [], false, false⟩) = .err (.other 7) ∧
    Connect true (.ok ⟨none, some .eof, [], [], false, false⟩) = .err .eof :=
  ⟨(ssl_io_failure_aborts ⟨some (.other 7), none, [], [], false, false⟩ rfl).1 (.other 7) rfl,
   (ssl_io_failure_aborts ⟨none, some .eof, [], [], false, false⟩ rfl).2 .eof rfl rfl⟩

/-- C4: on a stream beginning with a well-formed StartupMessage — 4 header
bytes decoding big-endian to `L ≥ 4`, with at least `L - 4` further bytes
available — `ReceiveStartupMessage` returns, with no error, the 4 header
bytes followed by exactly `L - 4` payload bytes and reports total length
exactly `L`. -/
theorem receiveStartup_wellFormed (s : Stream) (L : Nat)
    (hL : L = beUint32 (s.getD 0 0) (s.getD 1 0) (s.getD 2 0) (s.getD 3 0))
    (h4 : 4 ≤ L) (hAvail : L ≤ s.length) :
    ReceiveStartupMessage s = .ok (s.take 4 ++ (s.drop 4).take (L - 4)) L := by
  have hs4 : ¬s.length < 4 := by omega
  have e0 := getD_take s 4 0 (by omega)
  have e1 := getD_take s 4 1 (by omega)
  have e2 := getD_take s 4 2 (by omega)
  have e3 := getD_take s 4 3 (by omega)
  simp only [ReceiveStartupMessage, e0, e1, e2, e3, ← hL, if_neg hs4]
  have hn0 : ¬((L : Int) - 4 < 0) := by omega
  rw [if_neg hn0]
  have htn : ((L : Int) - 4).toNat = L - 4 := by omega
  rw [htn]
  have hpl : ¬((s.drop 4).length < L - 4) := by
    rw [List.length_drop]
    omega
  rw [if_neg hpl]
  have hlen : (s.take 4 ++ (s.drop 4).take (L - 4)).length = L := by
    rw [List.length_append, List.length_take, List.length_take, List.length_drop]
    omega
  rw [hlen]

/-- Witness for C4: the 5-byte stream `[0,0,0,5,9]` declares total length 5
and is returned whole with count 5 and no error. -/
theorem receiveStartup_wellFormed_witness :
    ReceiveStartupMessage [0, 0, 0, 5, 9] = .ok [0, 0, 0, 5, 9] 5 := by
  rw [receiveStartup_wellFormed [0, 0, 0, 5, 9] 5 (by decide) (by decide) (by decide)]
  decide

/-- C3: on a stream beginning with a well-formed RegularMessage — a type
byte, then 4 length bytes decoding big-endian to `L ≥ 4`, with at least
`L - 4` further bytes available — `Receive` returns, with no error, the 5
header bytes followed by exactly `L - 4` payload bytes and reports total
length `5 + (L - 4)`. -/
theorem receive_wellFormed (s : Stream) (L : Nat)
    (hL : L = beUint32 (s.getD 1 0) (s.getD 2 0) (s.getD 3 0) (s.getD 4 0))
    (h4 : 4 ≤ L) (hAvail : 5 + (L - 4) ≤ s.length) :
    Receive s = .ok (s.take 5 ++ (s.drop 5).take (L - 4)) (5 + (L - 4)) := by
  have hs5 : ¬s.length < 5 := by omega
  have e1 := getD_take s 5 1 (by omega)
  have e2 := getD_take s 5 2 (by omega)
  have e3 := getD_take s 5 3 (by omega)
  have e4 := getD_take s 5 4 (by omega)
  simp only [Receive, e1, e2, e3, e4, ← hL, if_neg hs5]
  have hn0 : ¬((L : Int) - 4 < 0) := by omega
  rw [if_neg hn0]
  have htn : ((L : Int) - 4).toNat = L - 4 := by omega
  rw [htn]
  have hpl : ¬((s.drop 5).length < L - 4) := by
    rw [List.length_drop]
    omega
  rw [if_neg hpl]
  have hlen : (s.take 5 ++ (s.drop 5).take (L - 4)).length = 5 + (L - 4) := by
    rw [List.length_append, List.length_take, List.length_take, List.length_drop]
    omega
  rw [hlen]

/-- Witness for C3: stream `[81,0,0,0,5,7]` — type byte 'Q', declared
length 5, one payload byte — is returned whole with count 6 and no
error. -/
theorem receive_wellFormed_witness :
    Receive [81, 0, 0, 0, 5, 7] = .ok [81, 0, 0, 0, 5, 7] 6 := by
  rw [receive_wellFormed [81, 0, 0, 0, 5, 7] 5 (by decide) (by decide) (by decide)]
  decide

/-- C9: whenever either receive function returns with a nil error, the
returned count equals the length of the returned byte slice. -/
theorem count_eq_length (s : Stream) (b : List Nat) (k : Nat) :
    (ReceiveStartupMessage s = .ok b k → k = b.length) ∧
    (Receive s = .ok b k → k = b.length) := by
  constructor
  · intro h
    simp only [ReceiveStartupMessage] at h
    split at h
    · exact absurd h (by simp)
    · split at h
      · exact absurd h (by simp)
      · split at h
        · exact absurd h (by simp)
        · rw [RecvResult.ok.injEq] at h
          obtain ⟨hb, hk⟩ := h
          rw [← hb, ← hk]
  · intro h
    simp only [Receive] at h
    split at h
    · exact absurd h (by simp)
    · split at h
      · exact absurd h (by simp)
      · split at h
        · exact absurd h (by simp)
        · rw [RecvResult.ok.injEq] at h
          obtain ⟨hb, hk⟩ := h
          rw [← hb, ← hk]

/-- Witness for C9: the counts returned at two concrete successful calls
equal the lengths of the returned slices. -/
theorem count_eq_length_witness :
    4 = [0, 0, 0, 4].length ∧ 5 = [81, 0, 0, 0, 4].length :=
  ⟨(count_eq_length [0, 0, 0, 4] [0, 0, 0, 4] 4).1 (by decide),
   (count_eq_length [81, 0, 0, 0, 4] [81, 0, 0, 0, 4] 5).2 (by decide)⟩

/-- C5 counterexample: on the stream `[0,0,0,8,1,2]` — a header declaring
8 total bytes, then only 2 payload bytes before closure —
`ReceiveStartupMessage` reports count 0 alongside the error, although 2
payload bytes (6 bytes in all) were actually delivered, so the count of
bytes actually read is discarded, not reported. -/
theorem receiveStartup_discards_partial_count :
    ReceiveStartupMessage [0, 0, 0, 8, 1, 2] = .fail 0 ∧
    (0 : Nat) ≠ 2 ∧ (0 : Nat) ≠ 6 := by
  decide

/-- C5 amended: when the stream closes after delivering the full header
but fewer than the declared payload bytes, `Receive` reports the count of
payload bytes actually delivered alongside the error, while
`ReceiveStartupMessage` discards that count and reports 0 alongside the
error. -/
theorem truncated_payload_counts :
    (∀ (s : Stream) (L : Nat),
       L = beUint32 (s.getD 0 0) (s.getD 1 0) (s.getD 2 0) (s.getD 3 0) →
       4 ≤ L → 4 ≤ s.length → s.length < L →
       ReceiveStartupMessage s = .fail 0) ∧
    (∀ (s : Stream) (L : Nat),
       L = beUint32 (s.getD 1 0) (s.getD 2 0) (s.getD 3 0) (s.getD 4 0) →
       4 ≤ L → 5 ≤ s.length → s.length < L + 1 →
       Receive s = .fail (s.length - 5)) := by
  constructor
  · intro s L hL h4 hs4 hshort
    have hs4' : ¬s.length < 4 := by omega
    have e0 := getD_take s 4 0 (by omega)
    have e1 := getD_take s 4 1 (by omega)
    have e2 := getD_take s 4 2 (by omega)
    have e3 := getD_take s 4 3 (by omega)
    simp only [ReceiveStartupMessage, e0, e1, e2, e3, ← hL, if_neg hs4']
    have hn0 : ¬((L : Int) - 4 < 0) := by omega
    rw [if_neg hn0]
    have htn : ((L : Int) - 4).toNat = L - 4 := by omega
    rw [htn]
    have hpl : (s.drop 4).length < L - 4 := by
      rw [List.length_drop]
      omega
    rw [if_pos hpl]
  · intro s L hL h4 hs5 hshort
    have hs5' : ¬s.length < 5 := by omega
    have e1 := getD_take s 5 1 (by omega)
    have e2 := getD_take s 5 2 (by omega)
    have e3 := getD_take s 5 3 (by omega)
    have e4 := getD_take s 5 4 (by omega)
    simp only [Receive, e1, e2, e3, e4, ← hL, if_neg hs5']
    have hn0 : ¬((L : Int) - 4 < 0) := by omega
    rw [if_neg hn0]
    have htn : ((L : Int) - 4).toNat = L - 4 := by omega
    rw [htn]
    have hpl : (s.drop 5).length < L - 4 := by
      rw [List.length_drop]
      omega
    rw [if_pos hpl, List.length_drop]

/-- Witness for the amended C5: the startup stream `[0,0,0,8,1,2]` yields
count 0, the regular stream `[81,0,0,0,8,1,2]` yields count 2 (its two
delivered payload bytes). -/
theorem truncated_payload_counts_witness :
    ReceiveStartupMessage [0, 0, 0, 8, 1, 2] = .fail 0 ∧
    Receive [81, 0, 0, 0, 8, 1, 2] = .fail 2 := by
  constructor
  · exact truncated_payload_counts.1 [0, 0, 0, 8, 1, 2] 8
      (by decide) (by decide) (by decide) (by decide)
  · have h := truncated_payload_counts.2 [81, 0, 0, 0, 8, 1, 2] 8
      (by decide) (by decide) (by decide) (by decide)
    simpa using h

end CrunchyProxy
